import Mathlib

/-!
Verification of the metrics/screening core of `scripts/jp_screen.py`.

Value model: the Python code uses IEEE floats with NaN as the "undefined"
sentinel (`np.nan`, tested with `math.isnan`).  We embed numeric values as `ℚ`
and an indicator that may be undefined as `Option ℚ`, with `none` standing for
NaN.  Pandas series become `List ℚ` (after `dropna` / `fillna`), and a raw
column with possible nulls becomes `List (Option ℚ)`.  A column that may be
absent from the table becomes `Option (List (Option ℚ))`.  Fallible per-ticker
computation (`return None` / the catch-all `except` wrapper) becomes
`Option Metrics`.

One caveat, marked again at the definition it concerns: `ℚ` has no infinities,
so the single unguarded float division of the source (`ma200_slope`) is
translated with `ℚ` division (where `x / 0 = 0`); the *definedness* (is-NaN
versus not-NaN) of every field nevertheless agrees with the source, because the
IEEE `0.0/0.0 = NaN` case is modelled explicitly there.
-/

namespace JpScreen

/-- `pd.Series.dropna()`: keep the non-null entries, in order. -/
def dropna (l : List (Option ℚ)) : List ℚ := l.filterMap id

/-- `pd.Series.fillna(0)`: replace null entries by `0`, keeping the length. -/
def fillna_zero (l : List (Option ℚ)) : List ℚ := l.map (fun x => x.getD 0)

/-- `s.iloc[-k]` on a Python series of floats: the `k`-th element from the
end, `none` when the series is too short (pandas raises `IndexError`, which the
caller's `except` absorbs; no caller reaches that case with a valid index
anyway). -/
def ilocNeg (l : List ℚ) (k : ℕ) : Option ℚ := l[l.length - k]?

/-- `_safe_pct(a, n)` from the source: `(a.iloc[-1] / a.iloc[-(n+1)]) - 1`,
NaN when the series has at most `n` observations or the reference value is `0`.
The source additionally tests `np.isnan(old)`/`np.isnan(new)`, which cannot
fire: `_safe_pct` is only applied to a series that went through `dropna()`,
which is what `List ℚ` models. -/
def safe_pct (a : List ℚ) (n : ℕ) : Option ℚ :=
  if a.length ≤ n then none
  else
    match ilocNeg a (n + 1), ilocNeg a 1 with
    | some old, some nw => if old = 0 then none else some (nw / old - 1)
    | _, _ => none

/-- `s.rolling(k).mean().iloc[-1]`: mean of the last `k` entries, NaN when the
window is not full. -/
def rollingMeanLast (l : List ℚ) (k : ℕ) : Option ℚ :=
  if l.length < k then none else some ((l.drop (l.length - k)).sum / (k : ℚ))

/-- `s.rolling(k).mean().iloc[p]` (`p` a nonnegative position): mean of the
window of `k` entries ending at position `p`, NaN when the window is not
full. -/
def rollingMeanAt (l : List ℚ) (k p : ℕ) : Option ℚ :=
  if k ≤ p + 1 ∧ p < l.length then some (((l.drop (p + 1 - k)).take k).sum / (k : ℚ))
  else none

/-- `s.rolling(k).max().iloc[-1]`: max of the last `k` entries, NaN when the
window is not full. -/
def rollingMaxLast (l : List ℚ) (k : ℕ) : Option ℚ :=
  if l.length < k then none else (l.drop (l.length - k)).max?

/-- `s.tail(k).mean()`: mean of the last `min k (length)` entries, NaN (none)
when the series is empty. -/
def tailMean (l : List ℚ) (k : ℕ) : Option ℚ :=
  let t := l.drop (l.length - k)
  if t.isEmpty then none else some (t.sum / (t.length : ℚ))

/-- `last_close / high20 if high20 > 0 else np.nan` (and the analogous
`prox_52wh` line): the proximity division, guarded by `denominator > 0`; a NaN
denominator also fails the `> 0` test and yields NaN. -/
def prox_div (last_close : ℚ) (h : Option ℚ) : Option ℚ :=
  match h with
  | some hv => if 0 < hv then some (last_close / hv) else none
  | none => none

/-- `(v10 / v20) if v20 > 0 else np.nan`: the volume-ratio division, guarded
by `v20 > 0`; `v10`/`v20` are NaN exactly when the volume series is empty, in
which case the guard fails. -/
def vol_ratio_div (v10 v20 : Option ℚ) : Option ℚ :=
  match v10, v20 with
  | some a, some b => if 0 < b then some (a / b) else none
  | _, _ => none

/-- `len(ma200.dropna())` where `ma200 = close.rolling(200).mean()`: the
rolling mean is non-NaN from position 199 on, so the count is
`length - 199` (truncated subtraction: `0` when fewer than 200 closes). -/
def ma200_dropna_len (close : List ℚ) : ℕ := close.length - 199

/-- The `ma200_slope` computation of the source:

    if len(ma200.dropna()) >= 21:
        ma200_slope = (ma200.iloc[-1] / ma200.iloc[-21]) - 1.0
    else:
        ma200_slope = np.nan

Unlike every other division of the indicator engine, this one is NOT guarded
against a zero denominator.  In IEEE arithmetic `x / 0.0` is `±inf` for
`x ≠ 0` (a defined, non-NaN value) and `0.0 / 0.0` is NaN.  `ℚ` has no
infinities, so the `0/0` NaN case is modelled explicitly by the inner `if`,
and in the remaining zero-denominator case the `ℚ` quotient `m1 / 0 = 0`
stands in for the infinite float; its *definedness* (non-NaN-ness), which is
all the filters and screens ever test, agrees with the source. -/
def ma200_slope_of (close : List ℚ) : Option ℚ :=
  if 21 ≤ ma200_dropna_len close then
    match rollingMeanAt close 200 (close.length - 1),
          rollingMeanAt close 200 (close.length - 21) with
    | some m1, some m21 =>
      if m1 = 0 ∧ m21 = 0 then none
      else some (m1 / m21 - 1)
    | _, _ => none
  else none

/-- `bool(last_close > float(maK.iloc[-1]))`: comparison with a NaN moving
average is `False`. -/
def above_ma (last_close : ℚ) (ma : Option ℚ) : Bool :=
  match ma with
  | some v => decide (v < last_close)
  | none => false

/-- The `Metrics` dataclass of the source.  Fields that the source fills with
a possibly-NaN float are `Option ℚ`. -/
structure Metrics where
  ticker : String
  name : String
  last_close : ℚ
  ret_5 : Option ℚ
  ret_20 : Option ℚ
  ret_60 : Option ℚ
  ret_120 : Option ℚ
  ret_250 : Option ℚ
  above_ma20 : Bool
  above_ma50 : Bool
  above_ma200 : Bool
  ma200_slope_20d : Option ℚ
  prox_20h : Option ℚ
  prox_52wh : Option ℚ
  vol_ratio_10_20 : Option ℚ
deriving DecidableEq

/-- The per-ticker slice of the downloaded bar table: the three columns the
source requires, each possibly absent (the `required = ["Close", "High",
"Volume"]` check), with possibly-null cells. -/
structure TickerTable where
  close : Option (List (Option ℚ))
  high : Option (List (Option ℚ))
  volume : Option (List (Option ℚ))

/-- `compute_metrics_for_ticker` from the source, for one ticker's table
slice.  Returns `none` ("not computable") when a required column is missing,
when fewer than 250 non-null closes exist, or on the paths where the source
would raise inside the `try` and fall into `except: return None` (empty close
after the length gate is impossible; empty high makes
`high.rolling(20).max().iloc[-1]` raise `IndexError`). -/
def compute_metrics_for_ticker (tbl : TickerTable) (ticker name : String) : Option Metrics :=
  match tbl.close, tbl.high, tbl.volume with
  | some closeCol, some highCol, some volCol =>
    let close := dropna closeCol
    let high := dropna highCol
    let vol := fillna_zero volCol
    if close.length < 250 then none
    else
      match ilocNeg close 1 with
      | none => none
      | some last_close =>
        if high.isEmpty then none
        else
          some
            { ticker := ticker
              name := name
              last_close := last_close
              ret_5 := safe_pct close 5
              ret_20 := safe_pct close 20
              ret_60 := safe_pct close 60
              ret_120 := safe_pct close 120
              ret_250 := if 250 < close.length then safe_pct close 250 else none
              above_ma20 := above_ma last_close (rollingMeanLast close 20)
              above_ma50 := above_ma last_close (rollingMeanLast close 50)
              above_ma200 := above_ma last_close (rollingMeanLast close 200)
              ma200_slope_20d := ma200_slope_of close
              prox_20h := prox_div last_close (rollingMaxLast high 20)
              prox_52wh := prox_div last_close ((high.drop (high.length - min 252 high.length)).max?)
              vol_ratio_10_20 := vol_ratio_div (tailMean vol 10) (tailMean vol 20) }
  | _, _, _ => none

/-- `not math.isnan(x) and x >= c` for a possibly-NaN float `x`. -/
def defGeB (x : Option ℚ) (c : ℚ) : Bool :=
  match x with
  | some v => decide (c ≤ v)
  | none => false

/-- `not math.isnan(x) and x > c` for a possibly-NaN float `x`. -/
def defGtB (x : Option ℚ) (c : ℚ) : Bool :=
  match x with
  | some v => decide (c < v)
  | none => false

/-- `0.0 if math.isnan(x) else x`. -/
def zeroIfNan (x : Option ℚ) : ℚ :=
  match x with
  | some v => v
  | none => 0

/-- The eligibility condition of `screen_short`'s list comprehension. -/
def short_filter (m : Metrics) : Bool :=
  m.above_ma20 && m.above_ma50 && defGeB m.prox_20h 0.97 && defGeB m.vol_ratio_10_20 0.9

/-- The eligibility condition of `screen_mid`'s list comprehension. -/
def mid_filter (m : Metrics) : Bool :=
  m.above_ma50 && m.above_ma200 && defGtB m.ma200_slope_20d 0 && defGtB m.ret_60 0

/-- The eligibility condition of `screen_long`'s list comprehension. -/
def long_filter (m : Metrics) : Bool :=
  m.above_ma200 && defGtB m.ma200_slope_20d 0 && defGtB m.ret_250 0

/-- The short-horizon score body of `screen_short`. -/
def score_short (m : Metrics) : ℚ :=
  let r5 := zeroIfNan m.ret_5
  let r20 := zeroIfNan m.ret_20
  let prox20 := match m.prox_20h with | some p => p - 0.95 | none => 0
  let vr := match m.vol_ratio_10_20 with | some v => min v 2 - 1 | none => 0
  r5 * 100 + r20 * 50 + prox20 * 20 + vr * 10

/-- The mid-horizon score body of `screen_mid`. -/
def score_mid (m : Metrics) : ℚ :=
  let r60 := zeroIfNan m.ret_60
  let r120 := zeroIfNan m.ret_120
  let prox52 := match m.prox_52wh with | some p => p - 0.9 | none => 0
  let slope := zeroIfNan m.ma200_slope_20d
  r60 * 100 + r120 * 50 + prox52 * 15 + slope * 30

/-- The long-horizon score body of `screen_long`. -/
def score_long (m : Metrics) : ℚ :=
  let r250 := zeroIfNan m.ret_250
  let slope := zeroIfNan m.ma200_slope_20d
  let prox52 := match m.prox_52wh with | some p => p - 0.9 | none => 0
  r250 * 80 + slope * 40 + prox52 * 20

/-- One step of a stable descending insertion sort: insert `x` in front of the
first element whose score is `≤ x`'s, i.e. after every strictly greater score
and before every equal or smaller one.  `list.sort(key=score, reverse=True)`
in CPython is a stable descending sort; any stable descending sort computes
the same list, and this one is convenient to reason about. -/
def insertDesc (x : Metrics × ℚ) : List (Metrics × ℚ) → List (Metrics × ℚ)
  | [] => [x]
  | y :: ys => if y.2 ≤ x.2 then x :: y :: ys else y :: insertDesc x ys

/-- Stable sort by score, descending: `out.sort(key=lambda x: x[1],
reverse=True)`. -/
def sortDesc (l : List (Metrics × ℚ)) : List (Metrics × ℚ) := l.foldr insertDesc []

/-- `screen_short` from the source: filter, score, sort descending.  The input
list may contain `None` entries (`m is not None` is the first conjunct of the
comprehension). -/
def screen_short (metrics : List (Option Metrics)) : List (Metrics × ℚ) :=
  let filtered := metrics.filterMap (fun om =>
    match om with
    | none => none
    | some m => if short_filter m then some m else none)
  sortDesc (filtered.map (fun m => (m, score_short m)))

/-- `screen_mid` from the source. -/
def screen_mid (metrics : List (Option Metrics)) : List (Metrics × ℚ) :=
  let filtered := metrics.filterMap (fun om =>
    match om with
    | none => none
    | some m => if mid_filter m then some m else none)
  sortDesc (filtered.map (fun m => (m, score_mid m)))

/-- `screen_long` from the source. -/
def screen_long (metrics : List (Option Metrics)) : List (Metrics × ℚ) :=
  let filtered := metrics.filterMap (fun om =>
    match om with
    | none => none
    | some m => if long_filter m then some m else none)
  sortDesc (filtered.map (fun m => (m, score_long m)))

/-- `top_n = max(args.top, 0)` from `main` (the requested top-N is a parsed
integer, possibly negative). -/
def mainTopClamp (top : ℤ) : ℕ := (max top 0).toNat

/-- The candidate selection of `main`: `screen_*(metrics)[:top_n]` for the
three horizons (a Python slice `l[:k]` with `k ≥ 0` is `take k`). -/
def mainSelect (metrics : List (Option Metrics)) (top : ℤ) :
    List (Metrics × ℚ) × List (Metrics × ℚ) × List (Metrics × ℚ) :=
  ((screen_short metrics).take (mainTopClamp top),
   (screen_mid metrics).take (mainTopClamp top),
   (screen_long metrics).take (mainTopClamp top))

/-- The descriptive fragments that `explain` can append to `parts`, one
constructor per emitted string, carrying the numeric payload that the string
interpolates (the model keeps the exact rational; the source formats it). -/
inductive Frag where
  | ret5 (v : ℚ)
  | ret20 (v : ℚ)
  | ret60 (v : ℚ)
  | ret120 (v : ℚ)
  | volRatio (v : ℚ)
  | near20h
  | dist20h (v : ℚ)
  | new52wh
  | near52wh
  | dist52wh (v : ℚ)
  | maShortTrend
  | maMidTrend
  | maLongTrend
  | slopeUp (v : ℚ)
  | ret250 (v : ℚ)
deriving DecidableEq

/-- The `explain(m, tf)` closure of `main`, as the ordered list of fragments
it joins.  Every branch and guard mirrors the source. -/
def explain (m : Metrics) (tf : String) : List Frag :=
  (match m.ret_5 with | some v => [Frag.ret5 v] | none => []) ++
  (match m.ret_20 with | some v => [Frag.ret20 v] | none => []) ++
  (match m.ret_60 with | some v => [Frag.ret60 v] | none => []) ++
  (match m.ret_120 with | some v => [Frag.ret120 v] | none => []) ++
  (match m.vol_ratio_10_20 with | some v => [Frag.volRatio v] | none => []) ++
  (match m.prox_20h with
   | some p => if (0.99 : ℚ) ≤ p then [Frag.near20h] else [Frag.dist20h ((1 - p) * 100)]
   | none => []) ++
  (match m.prox_52wh with
   | some p =>
     if (1 : ℚ) ≤ p then [Frag.new52wh]
     else if (0.97 : ℚ) ≤ p then [Frag.near52wh]
     else [Frag.dist52wh ((1 - p) * 100)]
   | none => []) ++
  (if tf = "short" then
     (if m.above_ma20 && m.above_ma50 then [Frag.maShortTrend] else [])
   else if tf = "mid" then
     (if m.above_ma50 && m.above_ma200 then [Frag.maMidTrend] else []) ++
     (match m.ma200_slope_20d with
      | some s => if 0 < s then [Frag.slopeUp (s * 100)] else []
      | none => [])
   else if tf = "long" then
     (if m.above_ma200 then [Frag.maLongTrend] else []) ++
     (match m.ma200_slope_20d with
      | some s => if 0 < s then [Frag.slopeUp (s * 100)] else []
      | none => []) ++
     (match m.ret_250 with | some v => [Frag.ret250 v] | none => [])
   else [])

/-- Which indicator of `m` a fragment reads its value from; `true` when that
indicator is defined (trend fragments read only the always-defined booleans). -/
def fragDefined (m : Metrics) : Frag → Bool
  | .ret5 _ => m.ret_5.isSome
  | .ret20 _ => m.ret_20.isSome
  | .ret60 _ => m.ret_60.isSome
  | .ret120 _ => m.ret_120.isSome
  | .volRatio _ => m.vol_ratio_10_20.isSome
  | .near20h => m.prox_20h.isSome
  | .dist20h _ => m.prox_20h.isSome
  | .new52wh => m.prox_52wh.isSome
  | .near52wh => m.prox_52wh.isSome
  | .dist52wh _ => m.prox_52wh.isSome
  | .maShortTrend => true
  | .maMidTrend => true
  | .maLongTrend => true
  | .slopeUp _ => m.ma200_slope_20d.isSome
  | .ret250 _ => m.ret_250.isSome

theorem insertDesc_perm (x : Metrics × ℚ) (l : List (Metrics × ℚ)) :
    List.Perm (insertDesc x l) (x :: l) := by
  induction l with
  | nil => exact List.Perm.refl _
  | cons y ys ih =>
    by_cases h : y.2 ≤ x.2
    · simp [insertDesc, h]
    · simp only [insertDesc, if_neg h]
      exact (ih.cons y).trans (List.Perm.swap x y ys)

theorem sortDesc_perm (l : List (Metrics × ℚ)) : List.Perm (sortDesc l) l := by
  induction l with
  | nil => exact List.Perm.refl _
  | cons a l ih => exact (insertDesc_perm a (sortDesc l)).trans (ih.cons a)

theorem mem_sortDesc {a : Metrics × ℚ} {l : List (Metrics × ℚ)} :
    a ∈ sortDesc l ↔ a ∈ l :=
  (sortDesc_perm l).mem_iff

theorem sortDesc_length (l : List (Metrics × ℚ)) : (sortDesc l).length = l.length :=
  (sortDesc_perm l).length_eq

theorem insertDesc_pairwise (x : Metrics × ℚ) (l : List (Metrics × ℚ))
    (h : l.Pairwise (fun a b => b.2 ≤ a.2)) :
    (insertDesc x l).Pairwise (fun a b => b.2 ≤ a.2) := by
  induction l with
  | nil => simp [insertDesc]
  | cons y ys ih =>
    rcases List.pairwise_cons.1 h with ⟨hy, hys⟩
    by_cases hle : y.2 ≤ x.2
    · simp only [insertDesc, if_pos hle]
      refine List.pairwise_cons.2 ⟨?_, h⟩
      intro z hz
      rcases List.mem_cons.1 hz with rfl | hz
      · exact hle
      · exact (hy z hz).trans hle
    · simp only [insertDesc, if_neg hle]
      refine List.pairwise_cons.2 ⟨?_, ih hys⟩
      intro z hz
      have hz2 := (insertDesc_perm x ys).mem_iff.1 hz
      rcases List.mem_cons.1 hz2 with rfl | hz2
      · exact (not_le.1 hle).le
      · exact hy z hz2

theorem sortDesc_pairwise (l : List (Metrics × ℚ)) :
    (sortDesc l).Pairwise (fun a b => b.2 ≤ a.2) := by
  induction l with
  | nil => simp [sortDesc]
  | cons a l ih => exact insertDesc_pairwise a (sortDesc l) ih

theorem filter_insertDesc (s : ℚ) (x : Metrics × ℚ) (l : List (Metrics × ℚ)) :
    (insertDesc x l).filter (fun p => decide (p.2 = s)) =
      if x.2 = s then x :: l.filter (fun p => decide (p.2 = s))
      else l.filter (fun p => decide (p.2 = s)) := by
  induction l with
  | nil => by_cases hx : x.2 = s <;> simp [insertDesc, hx]
  | cons y ys ih =>
    by_cases hle : y.2 ≤ x.2
    · have hstep : insertDesc x (y :: ys) = x :: y :: ys := by
        simp [insertDesc, hle]
      rw [hstep]
      by_cases hx : x.2 = s <;> by_cases hy : y.2 = s <;>
        simp [List.filter_cons, hx, hy]
    · have hstep : insertDesc x (y :: ys) = y :: insertDesc x ys := by
        simp [insertDesc, hle]
      rw [hstep]
      by_cases hy : y.2 = s
      · have hx : ¬x.2 = s := by
          intro hx
          have hlt := not_le.1 hle
          rw [hx, hy] at hlt
          exact lt_irrefl s hlt
        simp [List.filter_cons, hy, hx, ih]
      · simp [List.filter_cons, hy, ih]

theorem sortDesc_filter (s : ℚ) (l : List (Metrics × ℚ)) :
    (sortDesc l).filter (fun p => decide (p.2 = s)) =
      l.filter (fun p => decide (p.2 = s)) := by
  induction l with
  | nil => rfl
  | cons a l ih =>
    show (insertDesc a (sortDesc l)).filter _ = _
    rw [filter_insertDesc]
    by_cases ha : a.2 = s <;> simp [List.filter_cons, ha, ih]

theorem mem_screen_iff (cond : Metrics → Bool) (score : Metrics → ℚ)
    (ms : List (Option Metrics)) (m : Metrics) :
    (∃ s, (m, s) ∈ sortDesc ((ms.filterMap (fun om =>
        match om with
        | none => none
        | some m1 => if cond m1 then some m1 else none)).map (fun m1 => (m1, score m1)))) ↔
      some m ∈ ms ∧ cond m = true := by
  constructor
  · rintro ⟨s, hs⟩
    rw [mem_sortDesc] at hs
    rcases List.mem_map.1 hs with ⟨m1, hm1, heq⟩
    rcases List.mem_filterMap.1 hm1 with ⟨om, hom, hf⟩
    have hm : m1 = m := congrArg Prod.fst heq
    subst hm
    cases om with
    | none => simp at hf
    | some m2 =>
      by_cases hc : cond m2 <;> simp [hc] at hf
      subst hf
      exact ⟨hom, hc⟩
  · rintro ⟨hmem, hc⟩
    refine ⟨score m, ?_⟩
    rw [mem_sortDesc]
    exact List.mem_map.2 ⟨m, List.mem_filterMap.2 ⟨some m, hmem, by simp [hc]⟩, rfl⟩

theorem mem_screen_score (cond : Metrics → Bool) (score : Metrics → ℚ)
    (ms : List (Option Metrics)) (m : Metrics) (s : ℚ)
    (hs : (m, s) ∈ sortDesc ((ms.filterMap (fun om =>
        match om with
        | none => none
        | some m1 => if cond m1 then some m1 else none)).map (fun m1 => (m1, score m1)))) :
    s = score m := by
  rw [mem_sortDesc] at hs
  rcases List.mem_map.1 hs with ⟨m1, hm1, heq⟩
  have h1 : m1 = m := congrArg Prod.fst heq
  have h2 : score m1 = s := congrArg Prod.snd heq
  rw [← h2, h1]

theorem screen_short_def (ms : List (Option Metrics)) :
    screen_short ms = sortDesc ((ms.filterMap (fun om =>
        match om with
        | none => none
        | some m1 => if short_filter m1 then some m1 else none)).map
      (fun m1 => (m1, score_short m1))) := rfl

theorem screen_mid_def (ms : List (Option Metrics)) :
    screen_mid ms = sortDesc ((ms.filterMap (fun om =>
        match om with
        | none => none
        | some m1 => if mid_filter m1 then some m1 else none)).map
      (fun m1 => (m1, score_mid m1))) := rfl

theorem screen_long_def (ms : List (Option Metrics)) :
    screen_long ms = sortDesc ((ms.filterMap (fun om =>
        match om with
        | none => none
        | some m1 => if long_filter m1 then some m1 else none)).map
      (fun m1 => (m1, score_long m1))) := rfl

theorem filterMap_skip_none (cond : Metrics → Bool) (ms : List (Option Metrics)) :
    ((ms.filterMap id).map some).filterMap (fun om =>
        match om with
        | none => none
        | some m1 => if cond m1 then some m1 else none) =
      ms.filterMap (fun om =>
        match om with
        | none => none
        | some m1 => if cond m1 then some m1 else none) := by
  induction ms with
  | nil => rfl
  | cons a l ih =>
    cases a with
    | none => simpa [List.filterMap_cons] using ih
    | some m => by_cases hc : cond m <;> simp [List.filterMap_cons, hc, ih]

theorem defGeB_true_iff (x : Option ℚ) (c : ℚ) :
    defGeB x c = true ↔ ∃ v, x = some v ∧ c ≤ v := by
  cases x <;> simp [defGeB]

theorem defGtB_true_iff (x : Option ℚ) (c : ℚ) :
    defGtB x c = true ↔ ∃ v, x = some v ∧ c < v := by
  cases x <;> simp [defGtB]

/-- C1: a Metrics value is short-eligible (appears in `screen_short`'s output
with some score) iff it is in the input and `above_ma20`, `above_ma50` hold,
`prox_20h` is defined with `prox_20h ≥ 0.97`, and `vol_ratio_10_20` is defined
with `vol_ratio_10_20 ≥ 0.9`; mid-eligible iff `above_ma50`, `above_ma200`,
`ma200_slope_20d` defined and `> 0`, `ret_60` defined and `> 0`; long-eligible
iff `above_ma200`, `ma200_slope_20d` defined and `> 0`, `ret_250` defined and
`> 0`.  An undefined indicator in a numeric comparison makes the ticker
ineligible for that horizon. -/
theorem claim_C1 (ms : List (Option Metrics)) (m : Metrics) :
    ((∃ s, (m, s) ∈ screen_short ms) ↔
      some m ∈ ms ∧ m.above_ma20 = true ∧ m.above_ma50 = true ∧
        (∃ p, m.prox_20h = some p ∧ (0.97 : ℚ) ≤ p) ∧
        (∃ v, m.vol_ratio_10_20 = some v ∧ (0.9 : ℚ) ≤ v)) ∧
    ((∃ s, (m, s) ∈ screen_mid ms) ↔
      some m ∈ ms ∧ m.above_ma50 = true ∧ m.above_ma200 = true ∧
        (∃ v, m.ma200_slope_20d = some v ∧ 0 < v) ∧
        (∃ v, m.ret_60 = some v ∧ 0 < v)) ∧
    ((∃ s, (m, s) ∈ screen_long ms) ↔
      some m ∈ ms ∧ m.above_ma200 = true ∧
        (∃ v, m.ma200_slope_20d = some v ∧ 0 < v) ∧
        (∃ v, m.ret_250 = some v ∧ 0 < v)) := by
  refine ⟨?_, ?_, ?_⟩
  · rw [screen_short_def ms, mem_screen_iff short_filter score_short ms m]
    simp only [short_filter, Bool.and_eq_true, defGeB_true_iff, and_assoc]
  · rw [screen_mid_def ms, mem_screen_iff mid_filter score_mid ms m]
    simp only [mid_filter, Bool.and_eq_true, defGtB_true_iff, and_assoc]
  · rw [screen_long_def ms, mem_screen_iff long_filter score_long ms m]
    simp only [long_filter, Bool.and_eq_true, defGtB_true_iff, and_assoc]

/-- C2: the score attached to every entry of a screen's output is the stated
linear combination, with a term contributing exactly `0` when its source
indicator is undefined — for the proximity terms the zeroing happens after the
offset subtraction, never as a negative penalty. -/
theorem claim_C2 (ms : List (Option Metrics)) (m : Metrics) (s : ℚ) :
    ((m, s) ∈ screen_short ms →
      s = 100 * (match m.ret_5 with | some v => v | none => 0)
        + 50 * (match m.ret_20 with | some v => v | none => 0)
        + (match m.prox_20h with | some p => 20 * (p - 0.95) | none => 0)
        + (match m.vol_ratio_10_20 with | some v => 10 * (min v 2 - 1) | none => 0)) ∧
    ((m, s) ∈ screen_mid ms →
      s = 100 * (match m.ret_60 with | some v => v | none => 0)
        + 50 * (match m.ret_120 with | some v => v | none => 0)
        + (match m.prox_52wh with | some p => 15 * (p - 0.9) | none => 0)
        + 30 * (match m.ma200_slope_20d with | some v => v | none => 0)) ∧
    ((m, s) ∈ screen_long ms →
      s = 80 * (match m.ret_250 with | some v => v | none => 0)
        + 40 * (match m.ma200_slope_20d with | some v => v | none => 0)
        + (match m.prox_52wh with | some p => 20 * (p - 0.9) | none => 0)) := by
  refine ⟨?_, ?_, ?_⟩
  · intro hs
    rw [screen_short_def ms] at hs
    have h := mem_screen_score short_filter score_short ms m s hs
    subst h
    cases h5 : m.ret_5 <;> cases h20 : m.ret_20 <;> cases hp : m.prox_20h <;>
      cases hv : m.vol_ratio_10_20 <;>
        simp [score_short, zeroIfNan, h5, h20, hp, hv] <;> ring
  · intro hs
    rw [screen_mid_def ms] at hs
    have h := mem_screen_score mid_filter score_mid ms m s hs
    subst h
    cases h60 : m.ret_60 <;> cases h120 : m.ret_120 <;> cases hp : m.prox_52wh <;>
      cases hsl : m.ma200_slope_20d <;>
        simp [score_mid, zeroIfNan, h60, h120, hp, hsl] <;> ring
  · intro hs
    rw [screen_long_def ms] at hs
    have h := mem_screen_score long_filter score_long ms m s hs
    subst h
    cases h250 : m.ret_250 <;> cases hsl : m.ma200_slope_20d <;> cases hp : m.prox_52wh <;>
      simp [score_long, zeroIfNan, h250, hsl, hp] <;> ring

/-- Eligible everywhere: a concrete Metrics value that passes all three
horizon filters, used by witnesses. -/
def mAll : Metrics :=
  { ticker := "7203.T", name := "W", last_close := 100,
    ret_5 := some (1/10), ret_20 := some (1/10), ret_60 := some (1/10),
    ret_120 := some (1/10), ret_250 := some (1/10),
    above_ma20 := true, above_ma50 := true, above_ma200 := true,
    ma200_slope_20d := some (1/10), prox_20h := some 1, prox_52wh := some 1,
    vol_ratio_10_20 := some 1 }

theorem claim_C2_witness :
    ((16 : ℚ) = 100 * (match mAll.ret_5 with | some v => v | none => 0)
        + 50 * (match mAll.ret_20 with | some v => v | none => 0)
        + (match mAll.prox_20h with | some p => 20 * (p - 0.95) | none => 0)
        + (match mAll.vol_ratio_10_20 with | some v => 10 * (min v 2 - 1) | none => 0)) ∧
    ((39/2 : ℚ) = 100 * (match mAll.ret_60 with | some v => v | none => 0)
        + 50 * (match mAll.ret_120 with | some v => v | none => 0)
        + (match mAll.prox_52wh with | some p => 15 * (p - 0.9) | none => 0)
        + 30 * (match mAll.ma200_slope_20d with | some v => v | none => 0)) ∧
    ((14 : ℚ) = 80 * (match mAll.ret_250 with | some v => v | none => 0)
        + 40 * (match mAll.ma200_slope_20d with | some v => v | none => 0)
        + (match mAll.prox_52wh with | some p => 20 * (p - 0.9) | none => 0)) := by
  refine ⟨?_, ?_, ?_⟩
  · refine (claim_C2 [some mAll] mAll 16).1 ?_
    rw [screen_short_def]
    have hf : short_filter mAll = true := by
      simp [short_filter, mAll, defGeB]
      norm_num
    have hsc : score_short mAll = 16 := by
      simp [score_short, mAll, zeroIfNan]
      norm_num
    simp [List.filterMap_cons, hf, sortDesc, insertDesc, hsc]
  · refine (claim_C2 [some mAll] mAll (39/2)).2.1 ?_
    rw [screen_mid_def]
    have hf : mid_filter mAll = true := by
      simp [mid_filter, mAll, defGtB]
    have hsc : score_mid mAll = 39/2 := by
      simp [score_mid, mAll, zeroIfNan]
      norm_num
    simp [List.filterMap_cons, hf, sortDesc, insertDesc, hsc]
  · refine (claim_C2 [some mAll] mAll 14).2.2 ?_
    rw [screen_long_def]
    have hf : long_filter mAll = true := by
      simp [long_filter, mAll, defGtB]
    have hsc : score_long mAll = 14 := by
      simp [score_long, mAll, zeroIfNan]
      norm_num
    simp [List.filterMap_cons, hf, sortDesc, insertDesc, hsc]

/-- C3: the ranked output (stable descending sort, then `take n`) is sorted by
score descending; the full sorted list keeps the entries of every fixed score
in input order (stability), and the truncated output's entries of a fixed
score are a prefix of them; the output length is `min n (input length)`;
`n = 0` gives the empty list and `n ≥ length` gives the whole sorted list. -/
theorem claim_C3 (pairs : List (Metrics × ℚ)) (n : ℕ) :
    ((sortDesc pairs).take n).Pairwise (fun a b => b.2 ≤ a.2) ∧
    (∀ s : ℚ, (sortDesc pairs).filter (fun p => decide (p.2 = s)) =
      pairs.filter (fun p => decide (p.2 = s))) ∧
    (∀ s : ℚ, List.IsPrefix (((sortDesc pairs).take n).filter (fun p => decide (p.2 = s)))
      (pairs.filter (fun p => decide (p.2 = s)))) ∧
    ((sortDesc pairs).take n).length = min n pairs.length ∧
    (n = 0 → (sortDesc pairs).take n = []) ∧
    (pairs.length ≤ n → (sortDesc pairs).take n = sortDesc pairs) := by
  refine ⟨?_, ?_, ?_, ?_, ?_, ?_⟩
  · exact List.Pairwise.sublist (List.take_sublist n _) (sortDesc_pairwise pairs)
  · exact fun s => sortDesc_filter s pairs
  · intro s
    refine ⟨(sortDesc pairs).drop n |>.filter (fun p => decide (p.2 = s)), ?_⟩
    rw [← List.filter_append, List.take_append_drop, sortDesc_filter]
  · rw [List.length_take, sortDesc_length]
  · intro h
    simp [h]
  · intro h
    exact List.take_of_length_le (by rw [sortDesc_length]; exact h)

theorem claim_C3_witness :
    (sortDesc [(mAll, 1), (mAll, 2)]).take 0 = [] ∧
    (sortDesc [(mAll, 1), (mAll, 2)]).take 5 = sortDesc [(mAll, 1), (mAll, 2)] ∧
    ((sortDesc [(mAll, 1), (mAll, 2)]).take 5).length = min 5 [(mAll, 1), (mAll, 2)].length :=
  ⟨(claim_C3 [(mAll, 1), (mAll, 2)] 0).2.2.2.2.1 rfl,
   (claim_C3 [(mAll, 1), (mAll, 2)] 5).2.2.2.2.2 (by simp),
   (claim_C3 [(mAll, 1), (mAll, 2)] 5).2.2.2.1⟩

/-- C5: `ret_n` (via `_safe_pct`) is undefined iff the series has at most `n`
observations or the reference value `close[-(n+1)]` is `0` (it can never be
undefined after `dropna`), otherwise it equals
`close[-1] / close[-(n+1)] - 1`; and the `ret_250` field of a computed
Metrics is gated by the strict `len(close) > 250` test, else undefined.
The embedded functions are total, so no input raises. -/
theorem claim_C5 (a : List ℚ) (n : ℕ) :
    (safe_pct a n = none ↔ a.length ≤ n ∨ ilocNeg a (n + 1) = some 0) ∧
    (∀ old nw, n < a.length → ilocNeg a (n + 1) = some old → old ≠ 0 →
      ilocNeg a 1 = some nw → safe_pct a n = some (nw / old - 1)) ∧
    (∀ closeCol highCol volCol t nm m,
      compute_metrics_for_ticker ⟨some closeCol, some highCol, some volCol⟩ t nm = some m →
      m.ret_250 =
        (if 250 < (dropna closeCol).length then safe_pct (dropna closeCol) 250 else none)) := by
  refine ⟨?_, ?_, ?_⟩
  · unfold safe_pct
    by_cases hlen : a.length ≤ n
    · simp [hlen]
    · rw [if_neg hlen]
      have hn : n < a.length := not_le.1 hlen
      have hi1 : a.length - (n + 1) < a.length := by omega
      have hi2 : a.length - 1 < a.length := by omega
      have hold : ilocNeg a (n + 1) = some (a.get ⟨a.length - (n + 1), hi1⟩) := by
        unfold ilocNeg
        simp [List.getElem?_eq_getElem hi1]
      have hnw : ilocNeg a 1 = some (a.get ⟨a.length - 1, hi2⟩) := by
        unfold ilocNeg
        simp [List.getElem?_eq_getElem hi2]
      rw [hold, hnw]
      by_cases ho : a.get ⟨a.length - (n + 1), hi1⟩ = 0 <;> simp [ho, hlen]
  · intro old nw hn hold ho hnw
    unfold safe_pct
    rw [if_neg (not_le.2 hn), hold, hnw]
    simp [ho]
  · intro closeCol highCol volCol t nm m hm
    unfold compute_metrics_for_ticker at hm
    dsimp only at hm
    by_cases h1 : (dropna closeCol).length < 250
    · rw [if_pos h1] at hm
      exact Option.noConfusion hm
    · rw [if_neg h1] at hm
      cases hilo : ilocNeg (dropna closeCol) 1 with
      | none =>
        rw [hilo] at hm
        exact Option.noConfusion hm
      | some lc =>
        rw [hilo] at hm
        dsimp only at hm
        by_cases h2 : (dropna highCol).isEmpty = true
        · rw [if_pos h2] at hm
          exact Option.noConfusion hm
        · rw [if_neg h2] at hm
          have hrec := Option.some.inj hm
          rw [← hrec]

theorem claim_C5_witness :
    (safe_pct [] 0 = none ↔ ([] : List ℚ).length ≤ 0 ∨ ilocNeg [] 1 = some 0) ∧
    safe_pct [1, 2] 1 = some (2 / 1 - 1) :=
  ⟨(claim_C5 [] 0).1,
   (claim_C5 [1, 2] 1).2.1 1 2 (by decide) rfl (by norm_num) rfl⟩

/-- C6: the per-ticker metrics computation returns the "not computable"
signal `none` — rather than raising (the embedded function is total) —
whenever any of the required Close/High/Volume columns is missing for the
ticker, or fewer than 250 non-null close observations exist. -/
theorem claim_C6 (tbl : TickerTable) (t nm : String)
    (h : tbl.close = none ∨ tbl.high = none ∨ tbl.volume = none ∨
      ∀ c, tbl.close = some c → (dropna c).length < 250) :
    compute_metrics_for_ticker tbl t nm = none := by
  obtain ⟨oc, oh, ov⟩ := tbl
  rcases h with hc | hh | hv | hlt
  · cases hc
    rfl
  · cases hh
    cases oc <;> rfl
  · cases hv
    cases oc <;> cases oh <;> rfl
  · cases oc with
    | none => rfl
    | some c =>
      have hlen := hlt c rfl
      cases oh with
      | none => rfl
      | some h2 =>
        cases ov with
        | none => rfl
        | some v2 =>
          unfold compute_metrics_for_ticker
          dsimp only
          rw [if_pos hlen]

theorem claim_C6_witness :
    compute_metrics_for_ticker ⟨none, some [], some []⟩ "0000.T" "X" = none ∧
    compute_metrics_for_ticker ⟨some [], some [], some []⟩ "0000.T" "X" = none :=
  ⟨claim_C6 ⟨none, some [], some []⟩ "0000.T" "X" (Or.inl rfl),
   claim_C6 ⟨some [], some [], some []⟩ "0000.T" "X"
     (Or.inr (Or.inr (Or.inr (fun c hc => by
       cases Option.some.inj hc
       decide))))⟩

theorem frag_opt_chunk (m : Metrics) (x : Option ℚ) (g : ℚ → Frag) (f : Frag)
    (hs : ∀ v, fragDefined m (g v) = x.isSome)
    (hf : f ∈ (match x with | some v => [g v] | none => ([] : List Frag))) :
    fragDefined m f = true := by
  cases x with
  | none => simp at hf
  | some v =>
    simp at hf
    subst hf
    simp [hs v]

theorem frag_prox20_chunk (m : Metrics) (f : Frag)
    (hf : f ∈ (match m.prox_20h with
      | some p => if (0.99 : ℚ) ≤ p then [Frag.near20h] else [Frag.dist20h ((1 - p) * 100)]
      | none => ([] : List Frag))) :
    fragDefined m f = true := by
  cases h : m.prox_20h with
  | none =>
    rw [h] at hf
    simp at hf
  | some p =>
    rw [h] at hf
    by_cases hc : (0.99 : ℚ) ≤ p <;> simp [hc] at hf <;> subst hf <;> simp [fragDefined, h]

theorem frag_prox52_chunk (m : Metrics) (f : Frag)
    (hf : f ∈ (match m.prox_52wh with
      | some p =>
        if (1 : ℚ) ≤ p then [Frag.new52wh]
        else if (0.97 : ℚ) ≤ p then [Frag.near52wh]
        else [Frag.dist52wh ((1 - p) * 100)]
      | none => ([] : List Frag))) :
    fragDefined m f = true := by
  cases h : m.prox_52wh with
  | none =>
    rw [h] at hf
    simp at hf
  | some p =>
    rw [h] at hf
    by_cases h1 : (1 : ℚ) ≤ p
    · simp [h1] at hf
      subst hf
      simp [fragDefined, h]
    · by_cases h2 : (0.97 : ℚ) ≤ p <;> simp [h1, h2] at hf <;> subst hf <;>
        simp [fragDefined, h]

theorem frag_slope_chunk (m : Metrics) (f : Frag)
    (hf : f ∈ (match m.ma200_slope_20d with
      | some s => if 0 < s then [Frag.slopeUp (s * 100)] else []
      | none => ([] : List Frag))) :
    fragDefined m f = true := by
  cases h : m.ma200_slope_20d with
  | none =>
    rw [h] at hf
    simp at hf
  | some v =>
    rw [h] at hf
    by_cases hv : (0 : ℚ) < v
    · simp [hv] at hf
      subst hf
      simp [fragDefined, h]
    · simp [hv] at hf

/-- C8: for every Metrics value and horizon string, every fragment the
explanation builder emits reads only defined indicators: a fragment whose
source indicator is undefined is skipped entirely, so no undefined value is
ever rendered. -/
theorem claim_C8 (m : Metrics) (tf : String) :
    (explain m tf).all (fragDefined m) = true := by
  rw [List.all_eq_true]
  intro f hf
  unfold explain at hf
  simp only [List.mem_append] at hf
  rcases hf with ((((((hf | hf) | hf) | hf) | hf) | hf) | hf) | hf
  · exact frag_opt_chunk m m.ret_5 Frag.ret5 f (fun v => rfl) hf
  · exact frag_opt_chunk m m.ret_20 Frag.ret20 f (fun v => rfl) hf
  · exact frag_opt_chunk m m.ret_60 Frag.ret60 f (fun v => rfl) hf
  · exact frag_opt_chunk m m.ret_120 Frag.ret120 f (fun v => rfl) hf
  · exact frag_opt_chunk m m.vol_ratio_10_20 Frag.volRatio f (fun v => rfl) hf
  · exact frag_prox20_chunk m f hf
  · exact frag_prox52_chunk m f hf
  · by_cases h1 : tf = "short"
    · rw [if_pos h1] at hf
      by_cases hab : (m.above_ma20 && m.above_ma50) = true
      · rw [if_pos hab] at hf
        simp at hf
        subst hf
        rfl
      · rw [if_neg hab] at hf
        simp at hf
    · rw [if_neg h1] at hf
      by_cases h2 : tf = "mid"
      · rw [if_pos h2] at hf
        rcases List.mem_append.1 hf with hf | hf
        · by_cases hab : (m.above_ma50 && m.above_ma200) = true
          · rw [if_pos hab] at hf
            simp at hf
            subst hf
            rfl
          · rw [if_neg hab] at hf
            simp at hf
        · exact frag_slope_chunk m f hf
      · rw [if_neg h2] at hf
        by_cases h3 : tf = "long"
        · rw [if_pos h3] at hf
          rcases List.mem_append.1 hf with hf | hf
          · rcases List.mem_append.1 hf with hf | hf
            · by_cases hab : m.above_ma200 = true
              · rw [if_pos hab] at hf
                simp at hf
                subst hf
                rfl
              · rw [if_neg hab] at hf
                simp at hf
            · exact frag_slope_chunk m f hf
          · exact frag_opt_chunk m m.ret_250 Frag.ret250 f (fun v => rfl) hf
        · rw [if_neg h3] at hf
          simp at hf

/-- C9: `main` clamps the requested top-N to `max(top, 0)` before slicing, so
a negative top-N behaves exactly like `0` and yields empty candidate lists for
all three horizons. -/
theorem claim_C9 (top : ℤ) (metrics : List (Option Metrics)) (h : top < 0) :
    mainTopClamp top = 0 ∧ mainSelect metrics top = mainSelect metrics 0 ∧
      mainSelect metrics top = ([], [], []) := by
  have h0 : mainTopClamp top = 0 := by
    unfold mainTopClamp
    rw [max_eq_right h.le]
    rfl
  have h1 : mainTopClamp 0 = 0 := rfl
  exact ⟨h0, by simp [mainSelect, h0, h1], by simp [mainSelect, h0]⟩

theorem claim_C9_witness :
    mainTopClamp (-3) = 0 ∧ mainSelect [] (-3) = mainSelect [] 0 ∧
      mainSelect [] (-3) = ([], [], []) :=
  claim_C9 (-3) [] (by decide)

/-- C10: the three horizon screeners skip every `None` entry of their input:
their output is exactly the output on the input with the `None`s removed, so
it depends only on the non-None elements in order (and the embedded functions
are total — no exception). -/
theorem claim_C10 (ms : List (Option Metrics)) :
    screen_short ms = screen_short ((ms.filterMap id).map some) ∧
    screen_mid ms = screen_mid ((ms.filterMap id).map some) ∧
    screen_long ms = screen_long ((ms.filterMap id).map some) := by
  refine ⟨?_, ?_, ?_⟩
  · rw [screen_short_def, screen_short_def, filterMap_skip_none]
  · rw [screen_mid_def, screen_mid_def, filterMap_skip_none]
  · rw [screen_long_def, screen_long_def, filterMap_skip_none]

theorem dropna_map_some (l : List ℚ) : dropna (l.map some) = l := by
  simp [dropna, List.filterMap_map, Function.comp, List.filterMap_some]

theorem fillna_zero_map_some (l : List ℚ) : fillna_zero (l.map some) = l := by
  unfold fillna_zero
  induction l with
  | nil => rfl
  | cons a l ih => simp only [List.map_cons, Option.getD_some, ih]

theorem sum_replicate_q (n : ℕ) (c : ℚ) : (List.replicate n c).sum = (n : ℚ) * c := by
  rw [List.sum_replicate n c, nsmul_eq_mul]

theorem foldl_max_replicate (c : ℚ) (n : ℕ) : (List.replicate n c).foldl max c = c := by
  induction n with
  | zero => rfl
  | succ k ih => simp [List.replicate_succ, List.foldl_cons, max_self, ih]

theorem max?_replicate (c : ℚ) (n : ℕ) (h : n ≠ 0) :
    (List.replicate n c).max? = some c := by
  cases n with
  | zero => exact absurd rfl h
  | succ k =>
    rw [List.replicate_succ, List.max?_cons', foldl_max_replicate]

theorem isEmpty_replicate_false (n : ℕ) (c : ℚ) (h : n ≠ 0) :
    (List.replicate n c).isEmpty = false := by
  cases n with
  | zero => exact absurd rfl h
  | succ k => rw [List.replicate_succ]; rfl

theorem ilocNeg_replicate (n k : ℕ) (c : ℚ) (h1 : 1 ≤ k) (h2 : k ≤ n) :
    ilocNeg (List.replicate n c) k = some c := by
  unfold ilocNeg
  rw [List.length_replicate, List.getElem?_replicate, if_pos (by omega)]

theorem safe_pct_replicate (n k : ℕ) (c : ℚ) (hk : k < n) (hc : c ≠ 0) :
    safe_pct (List.replicate n c) k = some 0 := by
  unfold safe_pct
  rw [if_neg (by rw [List.length_replicate]; omega)]
  rw [ilocNeg_replicate n (k + 1) c (by omega) (by omega)]
  rw [ilocNeg_replicate n 1 c (by omega) (by omega)]
  dsimp only
  rw [if_neg hc, div_self hc]
  norm_num

theorem rollingMeanLast_replicate (n k : ℕ) (c : ℚ) (hk : k ≤ n) (hk0 : k ≠ 0) :
    rollingMeanLast (List.replicate n c) k = some c := by
  unfold rollingMeanLast
  rw [List.length_replicate, if_neg (by omega), List.drop_replicate, sum_replicate_q]
  rw [show n - (n - k) = k from by omega]
  rw [mul_div_cancel_left₀ c (Nat.cast_ne_zero.mpr hk0)]

theorem rollingMeanAt_replicate (n k p : ℕ) (c : ℚ) (hk : k ≤ p + 1) (hp : p < n)
    (hk0 : k ≠ 0) : rollingMeanAt (List.replicate n c) k p = some c := by
  unfold rollingMeanAt
  rw [List.length_replicate, if_pos ⟨hk, hp⟩, List.drop_replicate, List.take_replicate]
  rw [show min k (n - (p + 1 - k)) = k from by omega]
  rw [sum_replicate_q, mul_div_cancel_left₀ c (Nat.cast_ne_zero.mpr hk0)]

theorem rollingMaxLast_replicate (n k : ℕ) (c : ℚ) (hk : k ≤ n) (hk0 : k ≠ 0) :
    rollingMaxLast (List.replicate n c) k = some c := by
  unfold rollingMaxLast
  rw [List.length_replicate, if_neg (by omega), List.drop_replicate]
  exact max?_replicate c (n - (n - k)) (by omega)

theorem tailMean_replicate (n k : ℕ) (c : ℚ) (h0 : n ≠ 0) (hk0 : k ≠ 0) :
    tailMean (List.replicate n c) k = some c := by
  unfold tailMean
  dsimp only
  rw [List.length_replicate, List.drop_replicate]
  rw [isEmpty_replicate_false (n - (n - k)) c (by omega)]
  rw [if_neg (by simp)]
  rw [sum_replicate_q, List.length_replicate]
  rw [mul_div_cancel_left₀ c (Nat.cast_ne_zero.mpr (by omega : n - (n - k) ≠ 0))]

theorem ma200_slope_of_flat : ma200_slope_of (List.replicate 250 (100 : ℚ)) = some 0 := by
  unfold ma200_slope_of ma200_dropna_len
  rw [List.length_replicate, if_pos (by omega)]
  rw [rollingMeanAt_replicate 250 200 (250 - 1) 100 (by omega) (by omega) (by omega)]
  rw [rollingMeanAt_replicate 250 200 (250 - 21) 100 (by omega) (by omega) (by omega)]
  dsimp only
  rw [if_neg (by norm_num)]
  norm_num

theorem above_ma_flat : above_ma 100 (some 100) = false := by
  norm_num [above_ma]

theorem prox_div_flat : prox_div 100 (some 100) = some 1 := by
  norm_num [prox_div]

theorem vol_ratio_div_flat : vol_ratio_div (some 1000) (some 1000) = some 1 := by
  norm_num [vol_ratio_div]

/-- The C7 scenario input: exactly 250 bars, close and high flat at 100,
volume flat at 1000, no nulls. -/
def flatTable : TickerTable :=
  ⟨some ((List.replicate 250 (100 : ℚ)).map some),
   some ((List.replicate 250 (100 : ℚ)).map some),
   some ((List.replicate 250 (1000 : ℚ)).map some)⟩

/-- C7: on an aligned series of exactly 250 observations with close and high
flat at 100 and volume flat at 1000, the computed Metrics has
`ret_5 = ret_20 = ret_60 = ret_120 = 0`, `ret_250` undefined, all `above_maK`
false (the last close equals each average, not greater), `prox_20h =
prox_52wh = 1`, `vol_ratio_10_20 = 1`, and `ma200_slope_20d` defined and equal
to `0` (ma200 has 51 defined values, at least 21, and the series is flat). -/
theorem claim_C7 :
    compute_metrics_for_ticker flatTable "0000.T" "Flat" = some
      { ticker := "0000.T", name := "Flat", last_close := 100,
        ret_5 := some 0, ret_20 := some 0, ret_60 := some 0, ret_120 := some 0,
        ret_250 := none, above_ma20 := false, above_ma50 := false,
        above_ma200 := false, ma200_slope_20d := some 0, prox_20h := some 1,
        prox_52wh := some 1, vol_ratio_10_20 := some 1 } := by
  unfold compute_metrics_for_ticker flatTable
  dsimp only
  rw [dropna_map_some, fillna_zero_map_some]
  rw [List.length_replicate]
  rw [if_neg (by omega)]
  rw [ilocNeg_replicate 250 1 100 (by omega) (by omega)]
  dsimp only
  rw [isEmpty_replicate_false 250 100 (by omega)]
  rw [if_neg (by simp)]
  rw [safe_pct_replicate 250 5 100 (by omega) (by norm_num)]
  rw [safe_pct_replicate 250 20 100 (by omega) (by norm_num)]
  rw [safe_pct_replicate 250 60 100 (by omega) (by norm_num)]
  rw [safe_pct_replicate 250 120 100 (by omega) (by norm_num)]
  rw [if_neg (by omega : ¬(250 < 250))]
  rw [rollingMeanLast_replicate 250 20 100 (by omega) (by omega)]
  rw [rollingMeanLast_replicate 250 50 100 (by omega) (by omega)]
  rw [rollingMeanLast_replicate 250 200 100 (by omega) (by omega)]
  rw [above_ma_flat]
  rw [ma200_slope_of_flat]
  rw [rollingMaxLast_replicate 250 20 100 (by omega) (by omega)]
  rw [show (250 - min 252 250 : ℕ) = 0 from by omega]
  rw [List.drop_zero]
  rw [max?_replicate 100 250 (by omega)]
  rw [prox_div_flat]
  rw [tailMean_replicate 250 10 1000 (by omega) (by omega)]
  rw [tailMean_replicate 250 20 1000 (by omega) (by omega)]
  rw [vol_ratio_div_flat]

/-- A close/high series of 250 non-null observations whose first 230 values
are `0` and last 20 are `100`: the ma200 window ending 21 positions from the
end averages to `0`, while the last ma200 window averages to `10`. -/
def zeroFlatClose : List ℚ := List.replicate 230 0 ++ List.replicate 20 100

/-- The table slice built from `zeroFlatClose` (volume flat at 1). -/
def zeroFlatTable : TickerTable :=
  ⟨some (zeroFlatClose.map some), some (zeroFlatClose.map some),
   some ((List.replicate 250 (1 : ℚ)).map some)⟩

theorem zeroFlatClose_length : zeroFlatClose.length = 250 := by
  unfold zeroFlatClose
  rw [List.length_append, List.length_replicate, List.length_replicate]

theorem zeroFlatClose_m21 :
    rollingMeanAt zeroFlatClose 200 (250 - 21) = some 0 := by
  have hdrop30 : zeroFlatClose.drop 30 = List.replicate 200 0 ++ List.replicate 20 100 := by
    unfold zeroFlatClose
    rw [List.drop_append_of_le_length (by rw [List.length_replicate]; omega)]
    rw [List.drop_replicate]
  have htake200 :
      (List.replicate 200 (0 : ℚ) ++ List.replicate 20 100).take 200 =
        List.replicate 200 0 := by
    rw [List.take_append_of_le_length (by rw [List.length_replicate])]
    rw [List.take_replicate, min_self]
  unfold rollingMeanAt
  rw [zeroFlatClose_length, if_pos ⟨by omega, by omega⟩]
  rw [show (250 - 21 + 1 - 200 : ℕ) = 30 from by norm_num]
  rw [hdrop30, htake200, sum_replicate_q]
  norm_num

theorem zeroFlatClose_m1 :
    rollingMeanAt zeroFlatClose 200 (250 - 1) = some 10 := by
  have hdrop50 : zeroFlatClose.drop 50 = List.replicate 180 0 ++ List.replicate 20 100 := by
    unfold zeroFlatClose
    rw [List.drop_append_of_le_length (by rw [List.length_replicate]; omega)]
    rw [List.drop_replicate]
  unfold rollingMeanAt
  rw [zeroFlatClose_length, if_pos ⟨by omega, by omega⟩]
  rw [show (250 - 1 + 1 - 200 : ℕ) = 50 from by norm_num]
  rw [hdrop50]
  rw [List.take_of_length_le
    (by rw [List.length_append, List.length_replicate, List.length_replicate])]
  rw [List.sum_append, sum_replicate_q, sum_replicate_q]
  norm_num

/-- On `zeroFlatClose` the 21-value gate passes, the slope's denominator mean
is `0`, its numerator mean is `10 ≠ 0`, and the unguarded division still
produces a defined value (`10 / 0` is `+inf` in the source's IEEE floats; in
`ℚ` the payload is `10 / 0 - 1 = -1`, and the definedness agrees). -/
theorem zeroFlatClose_slope : ma200_slope_of zeroFlatClose = some (10 / 0 - 1) := by
  unfold ma200_slope_of ma200_dropna_len
  rw [zeroFlatClose_length, if_pos (by omega)]
  rw [show (250 - 1 : ℕ) = 250 - 1 from rfl]
  rw [zeroFlatClose_m1, zeroFlatClose_m21]
  dsimp only
  rw [if_neg (by norm_num)]

theorem zeroFlatClose_isEmpty : zeroFlatClose.isEmpty = false := by
  unfold zeroFlatClose
  rw [List.replicate_succ]
  rfl

theorem zeroFlatClose_ilocNeg1 : ilocNeg zeroFlatClose 1 = some 100 := by
  unfold ilocNeg
  rw [zeroFlatClose_length]
  unfold zeroFlatClose
  rw [List.getElem?_append_right (by rw [List.length_replicate]; omega)]
  rw [List.length_replicate, List.getElem?_replicate, if_pos (by omega)]

/-- C4 counterexample: the claim "every division yields the undefined value
when the denominator is zero" is false for `ma200_slope_20d`: on
`zeroFlatTable` the ma200 rolling mean 21 positions from the end (the
denominator of the slope division) is `0`, the ticker passes every gate of the
metrics computation, and the computed `ma200_slope_20d` is nevertheless a
defined (non-NaN) value — in the source's float arithmetic it is `+inf`,
which also falsifies "no indicator field is ever an infinite value". -/
theorem claim_C4_counterexample :
    rollingMeanAt zeroFlatClose 200 (zeroFlatClose.length - 21) = some 0 ∧
    (compute_metrics_for_ticker zeroFlatTable "0000.T" "Z").map
        (fun m => m.ma200_slope_20d.isSome) = some true := by
  constructor
  · rw [zeroFlatClose_length]
    exact zeroFlatClose_m21
  · unfold compute_metrics_for_ticker zeroFlatTable
    dsimp only
    rw [dropna_map_some, fillna_zero_map_some]
    rw [zeroFlatClose_length]
    rw [if_neg (by omega)]
    rw [zeroFlatClose_ilocNeg1]
    dsimp only
    rw [zeroFlatClose_isEmpty]
    rw [if_neg (by simp)]
    rw [Option.map_some']
    dsimp only
    rw [zeroFlatClose_slope]
    rfl

/-- C4 (amended): the divisions of `_safe_pct`, `prox_20h`, `prox_52wh` and
`vol_ratio_10_20` yield the undefined value whenever their denominator is zero
(or negative, for the `> 0`-guarded ones), and no embedded operation raises;
but the `ma200_slope_20d` division carries no zero-denominator guard: whenever
the 21-value gate passes and the numerator mean is nonzero, the slope is a
defined value regardless of the denominator — infinite in the source's float
arithmetic when the denominator is zero — rather than undefined. -/
theorem claim_C4_amended :
    (∀ a n old, ilocNeg a (n + 1) = some old → old = 0 → safe_pct a n = none) ∧
    (∀ lc hv, hv ≤ 0 → prox_div lc (some hv) = none) ∧
    (∀ v10 b, b ≤ 0 → vol_ratio_div v10 (some b) = none) ∧
    (∀ close m1 m21, 21 ≤ ma200_dropna_len close →
      rollingMeanAt close 200 (close.length - 1) = some m1 →
      rollingMeanAt close 200 (close.length - 21) = some m21 →
      m1 ≠ 0 → ma200_slope_of close ≠ none) := by
  refine ⟨?_, ?_, ?_, ?_⟩
  · intro a n old h1 h0
    unfold safe_pct
    by_cases hlen : a.length ≤ n
    · rw [if_pos hlen]
    · rw [if_neg hlen, h1]
      cases hnw : ilocNeg a 1 with
      | none => rfl
      | some nw =>
        dsimp only
        rw [if_pos h0]
  · intro lc hv hle
    unfold prox_div
    dsimp only
    rw [if_neg (not_lt.2 hle)]
  · intro v10 b hle
    unfold vol_ratio_div
    cases v10 with
    | none => rfl
    | some a =>
      dsimp only
      rw [if_neg (not_lt.2 hle)]
  · intro close m1 m21 hgate h1 h21 hm1
    unfold ma200_slope_of
    rw [if_pos hgate, h1, h21]
    dsimp only
    rw [if_neg (fun hand => hm1 hand.1)]
    exact Option.some_ne_none _

theorem claim_C4_amended_witness :
    safe_pct [0, 1] 1 = none ∧ prox_div 5 (some 0) = none ∧
    vol_ratio_div (some 3) (some 0) = none ∧ ma200_slope_of zeroFlatClose ≠ none :=
  ⟨claim_C4_amended.1 [0, 1] 1 0 rfl rfl,
   claim_C4_amended.2.1 5 0 le_rfl,
   claim_C4_amended.2.2.1 (some 3) 0 le_rfl,
   claim_C4_amended.2.2.2 zeroFlatClose 10 0
     (by rw [ma200_dropna_len, zeroFlatClose_length]; omega)
     (by rw [zeroFlatClose_length]; exact zeroFlatClose_m1)
     (by rw [zeroFlatClose_length]; exact zeroFlatClose_m21)
     (by norm_num)⟩

end JpScreen
